import Mathlib

/-! # Cortex integration harness: protocol client and backward-compatibility driver

A shallow embedding of

* `integration/e2ecortex/client.go` (`NewClient`, `Client.Push`, `Client.Query`,
  `addOrgIDRoundTripper.RoundTrip`), and
* `integration/backward_compatibility_test.go`
  (`TestBackwardCompatibilityWithChunksStorage`).

Everything outside the repository (protobuf, snappy, `net/url`, `net/http`,
the Prometheus API client, the scenario package) is a field of an explicit
environment record, and every call into it is appended to a log, so that the
theorems can speak about what was called, with which arguments, and in which
order.
-/

namespace Cortex

/-! ## Library data: `net/http`, `context`, `prompb` -/

abbrev Bytes := List Nat

abbrev Error := String

/-- The bytes `httpguts` accepts in a token: ASCII letters, digits and the
punctuation of RFC 7230. -/
def validHeaderFieldByte (c : Char) : Bool :=
  c.isAlphanum || "!#$%&'*+-.^_`|~".data.contains c

/-- The rewriting loop of `textproto.canonicalMIMEHeaderKey`: upper case at the
start and after each dash, lower case elsewhere. -/
def canonicalLoop : Bool → List Char → List Char
  | _, [] => []
  | upper, c :: cs =>
    let c1 := if upper && c.isLower then c.toUpper
              else if !upper && c.isUpper then c.toLower else c
    c1 :: canonicalLoop (c1 == '-') cs

/-- Go's `textproto.CanonicalMIMEHeaderKey`: a key holding a byte that is not a
token byte is returned unchanged. -/
def CanonicalMIMEHeaderKey (s : String) : String :=
  if s.data.all validHeaderFieldByte then String.mk (canonicalLoop true s.data) else s

/-- Go's `http.Header`, a `map[string][]string`: `none` is an absent key. -/
def Header := String → Option (List String)

/-- The header of a request fresh out of `http.NewRequest`. -/
def Header.empty : Header := fun _ => none

/-- Go's `Header.Add`: appends to the values of the canonical key. -/
def Header.Add (h : Header) (key value : String) : Header :=
  fun k => if k = CanonicalMIMEHeaderKey key then some ((h k).getD [] ++ [value]) else h k

/-- Go's `Header.Set`: replaces the values of the canonical key. -/
def Header.Set (h : Header) (key value : String) : Header :=
  fun k => if k = CanonicalMIMEHeaderKey key then some [value] else h k

/-- Go's `Header.Values`: the values stored under the canonical key. -/
def Header.Values (h : Header) (key : String) : List String :=
  (h (CanonicalMIMEHeaderKey key)).getD []

/-- A `context.Context`, reduced to its deadline (nanoseconds on the clock of
`World.clock`); `none` is a context that never times out. -/
structure Context where
  deadline : Option Nat

/-- Go's `context.Background()`. -/
def Context.Background : Context := { deadline := none }

/-- Go's `context.WithTimeout(parent, d)` called when the clock reads `now`:
the earlier of the parent's deadline and `now + d`. -/
def Context.WithTimeout (parent : Context) (now d : Nat) : Context :=
  match parent.deadline with
  | none => { deadline := some (now + d) }
  | some p => { deadline := some (min p (now + d)) }

/-- Go's `time.Second`, in nanoseconds. -/
def Second : Nat := 1000000000

/-- An `*http.Request`: `URL` is the raw string handed to `http.NewRequest`. -/
structure Request where
  Method : String
  URL : String
  Body : Bytes
  Header : Header
  ctx : Context

/-- Go's `Request.WithContext`. -/
def Request.WithContext (r : Request) (ctx : Context) : Request := { r with ctx := ctx }

/-- A response body: its bytes and whether `Close` was called on it. -/
structure Body where
  data : Bytes
  closed : Bool

/-- Go's `Body.Close()`. -/
def Body.Close (b : Body) : Body := { b with closed := true }

/-- An `*http.Response`. -/
structure Response where
  StatusCode : Int
  Header : Header
  Body : Body

/-- What `(*http.Client).Do` and `RoundTripper.RoundTrip` return: a response
with a nil error, or an error (Go documents that a response may accompany the
error when a redirect check fails). -/
inductive DoResult where
  | ok (res : Response)
  | error (err : Error) (res : Option Response)

structure Label where
  Name : String
  Value : String
  deriving DecidableEq

/-- A `prompb.Sample`; `Value` is the bit pattern of the float64. -/
structure Sample where
  Value : Nat
  Timestamp : Int
  deriving DecidableEq

structure TimeSeries where
  Labels : List Label
  Samples : List Sample
  deriving DecidableEq

structure WriteRequest where
  Timeseries : List TimeSeries

/-- A `model.Vector`: label sets with one sample each. -/
abbrev Vector := List (List Label × Sample)

/-- A `model.Value` returned by the query API, by its `Type()`. -/
inductive Value where
  | none
  | scalar (v : Sample)
  | vector (v : Vector)
  | matrix (v : List TimeSeries)
  | string (v : String)

inductive ValueType where
  | ValNone | ValScalar | ValVector | ValMatrix | ValString
  deriving DecidableEq

def Value.Type : Value → ValueType
  | .none => .ValNone
  | .scalar _ => .ValScalar
  | .vector _ => .ValVector
  | .matrix _ => .ValMatrix
  | .string _ => .ValString

/-! ## The client of `e2ecortex/client.go` -/

/-- The source's `addOrgIDRoundTripper`; `next` is always `http.DefaultTransport`,
whose behaviour is `Lib.defaultTransport`. -/
structure addOrgIDRoundTripper where
  orgID : String

/-- The `promapi.Config` that `NewClient` fills in. -/
structure Config where
  Address : String
  RoundTripper : addOrgIDRoundTripper

/-- The value of `promv1.NewAPI(querierAPIClient)`: the API client keeps the
configuration it was built from. -/
structure QuerierAPI where
  config : Config

/-- The source's `Client`; `httpClient` is the zero `http.Client` and has no
field of its own. -/
structure Client where
  distributorAddress : String
  timeout : Nat
  querierClient : QuerierAPI
  orgID : String

/-- One invocation of `querierClient.Query(ctx, query, ts)`. -/
structure QueryCall where
  api : QuerierAPI
  ctx : Context
  query : String
  ts : Int

/-- The behaviour of the code outside the repository. The HTTP and API fields
see the calls made before, so a second attempt may be answered differently
from the first. -/
structure Lib where
  protoMarshal : WriteRequest → Except Error Bytes
  snappyEncode : Bytes → Bytes
  urlParse : String → Option Error
  clientDo : List Request → Request → DoResult
  defaultTransport : List Request → Request → DoResult
  apiQuery : List QueryCall → QueryCall → Value × Option Error

/-- What the client has done to the outside so far, oldest call first. -/
structure World where
  clock : Nat
  done : List Request
  forwarded : List Request
  queries : List QueryCall

/-- Go's `validMethod`: a non-empty token. -/
def validMethod (method : String) : Bool :=
  method.length > 0 && method.data.all validHeaderFieldByte

/-- Go's `http.NewRequest(method, url, body)`. -/
def NewRequest (lib : Lib) (method url : String) (body : Bytes) : Except Error Request :=
  if validMethod method then
    match lib.urlParse url with
    | some err => .error err
    | none => .ok { Method := method, URL := url, Body := body, Header := Header.empty,
                    ctx := Context.Background }
  else .error ("net/http: invalid method " ++ method)

/-- Go's `promapi.NewClient(cfg)` followed by `promv1.NewAPI`: fails when the
address does not parse. -/
def promapiNewClient (lib : Lib) (cfg : Config) : Except Error QuerierAPI :=
  match lib.urlParse cfg.Address with
  | some err => .error err
  | none => .ok { config := cfg }

/-- The source's `NewClient`. -/
def NewClient (lib : Lib) (distributorAddress querierAddress orgID : String) :
    Except Error Client :=
  match promapiNewClient lib
      { Address := "http://" ++ querierAddress ++ "/api/prom",
        RoundTripper := { orgID := orgID } } with
  | .error err => .error err
  | .ok querierAPIClient =>
    .ok { distributorAddress := distributorAddress,
          timeout := 5 * Second,
          querierClient := querierAPIClient,
          orgID := orgID }

/-- The call `c.httpClient.Do(req)`: logged, answered by the library. -/
def httpClientDo (lib : Lib) (req : Request) (w : World) : DoResult × World :=
  (lib.clientDo w.done req, { w with done := w.done ++ [req] })

/-- The source's `Client.Push`, returning Go's pair `(res, err)`. The deferred
`res.Body.Close()` has run by the time the caller holds `res`. -/
def Client.Push (lib : Lib) (c : Client) (timeseries : List TimeSeries) (w : World) :
    (Option Response × Option Error) × World :=
  match lib.protoMarshal { Timeseries := timeseries } with
  | .error err => ((none, some err), w)
  | .ok data =>
    let compressed := lib.snappyEncode data
    match NewRequest lib "POST" ("http://" ++ c.distributorAddress ++ "/api/prom/push")
        compressed with
    | .error err => ((none, some err), w)
    | .ok req =>
      let req := { req with Header := req.Header.Add "Content-Encoding" "snappy" }
      let req := { req with Header := req.Header.Set "Content-Type" "application/x-protobuf" }
      let req := { req with
        Header := req.Header.Set "X-Prometheus-Remote-Write-Version" "0.1.0" }
      let req := { req with Header := req.Header.Set "X-Scope-OrgID" c.orgID }
      let ctx := Context.WithTimeout Context.Background w.clock c.timeout
      match httpClientDo lib (req.WithContext ctx) w with
      | (.error err _, w1) => ((none, some err), w1)
      | (.ok res, w1) => ((some { res with Body := res.Body.Close }, none), w1)

/-- The source's `Client.Query`, returning Go's pair `(value, err)`. -/
def Client.Query (lib : Lib) (c : Client) (query : String) (ts : Int) (w : World) :
    (Value × Option Error) × World :=
  let call : QueryCall :=
    { api := c.querierClient, ctx := Context.Background, query := query, ts := ts }
  (lib.apiQuery w.queries call, { w with queries := w.queries ++ [call] })

/-- The source's `addOrgIDRoundTripper.RoundTrip`: the request with the tenant
header overwritten goes to `next.RoundTrip`. -/
def addOrgIDRoundTripper.RoundTrip (lib : Lib) (r : addOrgIDRoundTripper) (req : Request)
    (w : World) : DoResult × World :=
  let req := { req with Header := req.Header.Set "X-Scope-OrgID" r.orgID }
  (lib.defaultTransport w.forwarded req, { w with forwarded := w.forwarded ++ [req] })

/-! ## The driver of `backward_compatibility_test.go` -/

/-- The source's `previousVersionImage`. -/
def previousVersionImage : String := "quay.io/cortexproject/cortex:v0.6.0"

/-- Command-line flags of a service, a Go `map[string]string`. -/
abbrev Flags := List (String × String)

/-- Modelled from the spec: `mergeFlags` is declared in another file of the
package; the data model describes it as defaults overlaid with overrides, the
override winning on a key collision. -/
def mergeFlags (defaults overrides : Flags) : Flags :=
  overrides ++ defaults.filter (fun kv => !overrides.any (fun o => o.1 == kv.1))

inductive Role where
  | dynamodb | consul | tableManager | ingester | distributor | querier
  deriving DecidableEq

/-- The arguments a service handle was constructed from; an empty `image` is
the current build. -/
structure Service where
  role : Role
  name : String
  flags : Flags
  image : String
  deriving DecidableEq

/-- Modelled from the spec: the constructors of the `e2edb` and `e2ecortex`
packages are declared outside the two source files; each returns the handle of
a named service of one role with the flags and image it was given. -/
def NewDynamoDB : Service := { role := .dynamodb, name := "dynamodb", flags := [], image := "" }

/-- Modelled from the spec: see `NewDynamoDB`. -/
def NewConsul : Service := { role := .consul, name := "consul", flags := [], image := "" }

/-- Modelled from the spec: see `NewDynamoDB`. -/
def NewTableManager (name : String) (flags : Flags) (image : String) : Service :=
  { role := .tableManager, name := name, flags := flags, image := image }

/-- Modelled from the spec: see `NewDynamoDB`. -/
def NewIngester (name : String) (flags : Flags) (image : String) : Service :=
  { role := .ingester, name := name, flags := flags, image := image }

/-- Modelled from the spec: see `NewDynamoDB`. -/
def NewDistributor (name : String) (flags : Flags) (image : String) : Service :=
  { role := .distributor, name := name, flags := flags, image := image }

/-- Modelled from the spec: see `NewDynamoDB`. -/
def NewQuerier (name : String) (flags : Flags) (image : String) : Service :=
  { role := .querier, name := name, flags := flags, image := image }

/-- The steps of the script: the calls into the scenario, the file system and
the client, and the three value checks. -/
inductive Step where
  | NewScenario
  | Close
  | StartService (svc : Service)
  | StopService (name : String)
  | WaitReady (names : List String)
  | WriteFile (path data : String)
  | WaitMetric (service metric : String) (value : Nat)
  | NewClient (distributorAddress querierAddress orgID : String)
  | Push (series : List TimeSeries)
  | Query (query : String) (ts : Int)
  | CheckStatus
  | CheckType
  | CheckVector
  deriving DecidableEq

/-- What a step gave back. -/
inductive Ret where
  | unit
  | error (err : Option Error)
  | client (err : Option Error)
  | push (res : Option Response) (err : Option Error)
  | query (value : Value) (err : Option Error)
  | check (equal : Bool)

/-- A step failed when it returned a non-nil error or its check did not hold. -/
def Ret.failed : Ret → Bool
  | .unit => false
  | .error err => err.isSome
  | .client err => err.isSome
  | .push _ err => err.isSome
  | .query _ err => err.isSome
  | .check equal => !equal

structure Event where
  step : Step
  ret : Ret

/-- What the driver runs against: the libraries under the client, the scenario
and file-system calls (answered by position in the run, so that the same call
may succeed once and fail later), and the constants and helpers declared
elsewhere in the package. -/
structure Env where
  lib : Lib
  scenario : Nat → Step → Option Error
  SharedDir : String
  Endpoint : String → Nat → String
  Join : String → String → String
  now : Int
  generateSeries : String → Int → List TimeSeries × Vector
  ObjectsAreEqual : Vector → Vector → Bool
  ChunksStorage : Flags
  cortexSchemaConfigFile : String
  cortexSchemaConfigYaml : String

/-- The state of one test run: the steps executed so far (oldest first),
whether `t` was marked failed, and the client's view of the outside. -/
structure TestState where
  trace : List Event
  failed : Bool
  world : World

/-- A piece of the test function: `none` means the goroutine was stopped
(`t.FailNow()` or a panic), so nothing after it runs except deferred calls. -/
def TestM (α : Type) := TestState → Option α × TestState

instance : Monad TestM where
  pure a := fun st => (some a, st)
  bind m f := fun st =>
    match m st with
    | (none, st1) => (none, st1)
    | (some a, st1) => f a st1

/-- Appends an executed step to the trace. -/
def record (step : Step) (ret : Ret) : TestM Unit :=
  fun st => (some (), { st with trace := st.trace ++ [{ step := step, ret := ret }] })

/-- Go's `t.FailNow()`, also standing for a panic: the test is marked failed
and the goroutine stops. -/
def failNow {α : Type} : TestM α :=
  fun st => (none, { st with failed := true })

/-- Go's `t.Fail()` as `assert` uses it: the test is marked failed and goes on. -/
def fail : TestM Unit :=
  fun st => (some (), { st with failed := true })

/-- A call into the scenario or the file system returning only an error. -/
def call (env : Env) (step : Step) : TestM (Option Error) :=
  fun st =>
    let err := env.scenario st.trace.length step
    (some err, { st with trace := st.trace ++ [{ step := step, ret := .error err }] })

/-- The source's `require.NoError(t, err)`. -/
def requireNoError (err : Option Error) : TestM Unit :=
  match err with
  | none => pure ()
  | some _ => failNow

/-- The error of a Go pair `(value, err)`. -/
def errorOf {α : Type} : Except Error α → Option Error
  | .ok _ => none
  | .error err => some err

/-- The call `e2ecortex.NewClient(...)` made by the driver. -/
def newClient (env : Env) (distributorAddress querierAddress orgID : String) :
    TestM (Except Error Client) := do
  let r := NewClient env.lib distributorAddress querierAddress orgID
  record (.NewClient distributorAddress querierAddress orgID) (.client (errorOf r))
  pure r

/-- The call `c.Push(series)` made by the driver. -/
def push (env : Env) (c : Client) (series : List TimeSeries) :
    TestM (Option Response × Option Error) :=
  fun st =>
    let r := c.Push env.lib series st.world
    (some r.1, { st with trace := st.trace ++ [{ step := .Push series, ret := .push r.1.1 r.1.2 }],
                         world := r.2 })

/-- The call `c.Query(query, ts)` made by the driver. -/
def query (env : Env) (c : Client) (q : String) (ts : Int) : TestM (Value × Option Error) :=
  fun st =>
    let r := c.Query env.lib q ts st.world
    (some r.1, { st with trace := st.trace ++ [{ step := .Query q ts, ret := .query r.1.1 r.1.2 }],
                         world := r.2 })

/-- The source's `require.Equal(t, expected, actual)` on a logged check. -/
def requireEqual (step : Step) (equal : Bool) : TestM Unit := do
  record step (.check equal)
  if equal then pure () else failNow

/-- The source's `assert.Equal(t, expected, actual)` on a logged check. -/
def assertEqual (step : Step) (equal : Bool) : TestM Unit := do
  record step (.check equal)
  if equal then pure () else fail

/-- The source's `require.NoError(t, err)` on the pair `(c, err)` a constructor
returned: the value is used only when the error is nil. -/
def requireOk {α : Type} (r : Except Error α) : TestM α :=
  match r with
  | .ok a => pure a
  | .error _ => failNow

/-- Reading a field through a pointer: a nil pointer panics. -/
def deref {α : Type} (p : Option α) : TestM α :=
  match p with
  | some a => pure a
  | none => failNow

/-- The source's type assertion `result.(model.Vector)`: any other value panics. -/
def assertVector (result : Value) : TestM Vector :=
  match result with
  | .vector v => pure v
  | _ => failNow

/-- The body of the source's `for _, image := range ...` loop. -/
def queryWith (env : Env) (expectedVector : Vector) (image : String) : TestM Unit := do
  requireNoError (← call env (.StartService (NewQuerier "querier" env.ChunksStorage image)))
  requireNoError (← call env (.WaitReady ["querier"]))
  requireNoError (← call env (.WaitMetric "querier" "cortex_ring_tokens_total" 512))
  let c ← requireOk
    (← newClient env (env.Endpoint "distributor" 80) (env.Endpoint "querier" 80) "user-1")
  let (result, err) ← query env c "series_1" env.now
  requireNoError err
  requireEqual .CheckType (decide (ValueType.ValVector = result.Type))
  let v ← assertVector result
  assertEqual .CheckVector (env.ObjectsAreEqual expectedVector v)
  requireNoError (← call env (.StopService "querier"))

/-- Go's `for _, x := range xs` over a piece of the test. -/
def forRange {α : Type} : List α → (α → TestM Unit) → TestM Unit
  | [], _ => pure ()
  | x :: xs, f => do f x; forRange xs f

/-- The statements of the source's test function after `defer s.Close()`. -/
def testBody (env : Env) : TestM Unit := do
  requireNoError (← call env (.StartService NewDynamoDB))
  requireNoError (← call env (.StartService NewConsul))
  requireNoError (← call env (.WaitReady ["consul", "dynamodb"]))
  requireNoError (← call env (.WriteFile (env.Join env.SharedDir env.cortexSchemaConfigFile)
    env.cortexSchemaConfigYaml))
  requireNoError (← call env (.StartService (NewTableManager "table-manager" env.ChunksStorage "")))
  requireNoError (← call env
    (.StartService (NewIngester "ingester-1" env.ChunksStorage previousVersionImage)))
  requireNoError (← call env (.StartService (NewDistributor "distributor" env.ChunksStorage "")))
  requireNoError (← call env (.WaitReady ["distributor", "ingester-1", "table-manager"]))
  requireNoError (← call env (.WaitMetric "table-manager" "cortex_dynamo_sync_tables_seconds" 1))
  requireNoError (← call env (.WaitMetric "distributor" "cortex_ring_tokens_total" 512))
  let (series, expectedVector) := env.generateSeries "series_1" env.now
  let c ← requireOk (← newClient env (env.Endpoint "distributor" 80) "" "user-1")
  let (res, err) ← push env c series
  requireNoError err
  let res ← deref res
  requireEqual .CheckStatus (decide ((200 : Int) = res.StatusCode))
  requireNoError (← call env (.StartService (NewIngester "ingester-2"
    (mergeFlags env.ChunksStorage [("-ingester.join-after", "10s")]) "")))
  requireNoError (← call env (.StopService "ingester-1"))
  forRange [previousVersionImage, ""] (queryWith env expectedVector)

/-- Go's `defer`: `cleanup` runs when `body` is left, whether it returned or the
goroutine was stopped inside it. -/
def withDefer {α : Type} (cleanup : TestM Unit) (body : TestM α) : TestM α :=
  fun st =>
    match body st with
    | (r, st1) => (r, (cleanup st1).2)

/-- The source's `TestBackwardCompatibilityWithChunksStorage`. -/
def TestBackwardCompatibilityWithChunksStorage (env : Env) : TestM Unit := do
  requireNoError (← call env .NewScenario)
  withDefer (record .Close .unit) (testBody env)

/-- A run of the test from the outside state `w`: nothing executed yet, not
marked failed. -/
def runTest (env : Env) (w : World) : TestState :=
  (TestBackwardCompatibilityWithChunksStorage env { trace := [], failed := false, world := w }).2


/-! ## Concrete inputs -/

/-- The vector the driver expects in the concrete runs: one sample of `series_1`. -/
def vector0 : Vector :=
  [([{ Name := "__name__", Value := "series_1" }], { Value := 1, Timestamp := 0 })]

/-- A library in which everything succeeds: the distributor answers 200 and the
query API the pushed sample. -/
def okLib : Lib :=
  { protoMarshal := fun r => .ok [r.Timeseries.length],
    snappyEncode := fun b => 0 :: b,
    urlParse := fun _ => none,
    clientDo := fun _ _ =>
      .ok { StatusCode := 200, Header := Header.empty, Body := { data := [], closed := false } },
    defaultTransport := fun _ _ =>
      .ok { StatusCode := 200, Header := Header.empty, Body := { data := [], closed := false } },
    apiQuery := fun _ _ => (.vector vector0, none) }

/-- The outside before anything was sent. -/
def world0 : World := { clock := 0, done := [], forwarded := [], queries := [] }

/-- The client the driver builds for its queries. -/
def client0 : Client :=
  { distributorAddress := "distributor:80",
    timeout := 5 * Second,
    querierClient :=
      { config := { Address := "http://querier:80/api/prom", RoundTripper := { orgID := "user-1" } } },
    orgID := "user-1" }

/-- As `okLib`, but URLs with a blank in them do not parse, as in Go's `net/url`. -/
def badHostLib : Lib :=
  { okLib with urlParse := fun u =>
      if u.data.contains ' ' then some "invalid character in host name" else none }

/-- The client `NewClient` builds for the distributor address "bad host". -/
def badHostClient : Client :=
  { distributorAddress := "bad host",
    timeout := 5 * Second,
    querierClient :=
      { config := { Address := "http://querier:80/api/prom", RoundTripper := { orgID := "user-1" } } },
    orgID := "user-1" }

/-- As `okLib`, but the distributor answers every request with status 500. -/
def status500Lib : Lib :=
  { okLib with clientDo := fun _ _ =>
      (DoResult.ok
        { StatusCode := 500, Header := Header.empty, Body := { data := [1], closed := false } }) }

/-- A query request that arrives at the querier transport carrying two other
tenants. -/
def foreignRequest : Request :=
  { Method := "GET", URL := "http://querier:80/api/prom/api/v1/query", Body := [],
    Header := (Header.empty.Add "X-Scope-OrgID" "user-2").Add "X-Scope-OrgID" "user-3",
    ctx := Context.Background }

/-- An environment in which every step succeeds. -/
def okEnv : Env :=
  { lib := okLib,
    scenario := fun _ _ => none,
    SharedDir := "/shared",
    Endpoint := fun name _ => name ++ ":80",
    Join := fun dir file => dir ++ "/" ++ file,
    now := 0,
    generateSeries := fun name ts =>
      ([{ Labels := [{ Name := "__name__", Value := name }],
          Samples := [{ Value := 1, Timestamp := ts }] }],
       [([{ Name := "__name__", Value := name }], { Value := 1, Timestamp := ts })]),
    ObjectsAreEqual := fun a b => decide (a = b),
    ChunksStorage := [("-store.engine", "chunks")],
    cortexSchemaConfigFile := "schema.yaml",
    cortexSchemaConfigYaml := "configs: []" }

/-- As `okEnv`, but the queriers answer an empty vector: the pushed sample was
lost on the way. -/
def lostSampleEnv : Env :=
  { okEnv with lib := { okLib with apiQuery := fun _ _ => (.vector [], none) } }

/-- As `okEnv`, but `e2e.NewScenario()` returns an error. -/
def noScenarioEnv : Env :=
  { okEnv with scenario := fun _ step =>
      match step with
      | .NewScenario => some "create docker network"
      | _ => none }

/-! ## Properties of a run

A run is the list of executed steps, oldest first; `t = pre ++ e :: post` reads
"`e` was executed in `t`, after the steps `pre` and before the steps `post`". -/

/-- Every step satisfying `p` was executed after a step satisfying `q`. -/
def OnlyAfter (p q : Event → Bool) (t : List Event) : Prop :=
  ∀ pre e post, t = pre ++ e :: post → p e = true → ∃ x ∈ pre, q x = true

/-- The scan deciding `OnlyAfter`; `seen` tells whether a `q` step was met. -/
def onlyAfter (p q : Event → Bool) : Bool → List Event → Bool
  | _, [] => true
  | seen, e :: es => (!p e || seen) && onlyAfter p q (seen || q e) es

/-- Every step satisfying `p` was executed after an `s` step, a `q` step later
than that one, and no `r` step since that `s` step. -/
def OnlyAfterSince (p s q r : Event → Bool) (t : List Event) : Prop :=
  ∀ pre e post, t = pre ++ e :: post → p e = true →
    ∃ a x b y c, pre = a ++ x :: (b ++ y :: c) ∧ s x = true ∧ q y = true ∧
      (∀ z ∈ b, r z = false) ∧ (∀ z ∈ c, r z = false)

/-- The phase after one more step: 0 before any `s` step or after an `r` step,
1 after an `s` step, 2 once a `q` step followed it. -/
def sincePhase (s q r : Event → Bool) (ph : Nat) (e : Event) : Nat :=
  if s e then 1
  else if r e then 0
  else if q e && ph == 1 then 2
  else ph

/-- The scan deciding `OnlyAfterSince`. -/
def onlyAfterSince (p s q r : Event → Bool) : Nat → List Event → Bool
  | _, [] => true
  | ph, e :: es => (!p e || ph == 2) && onlyAfterSince p s q r (sincePhase s q r ph e) es

def Step.isClose : Step → Bool
  | .Close => true
  | _ => false

/-- A failure of a step selected by `strict` stops the script: the test is
marked failed and nothing but `Close` is executed afterwards. -/
def AbortsAtFailure (strict : Step → Bool) (st : TestState) : Prop :=
  ∀ pre e post, st.trace = pre ++ e :: post → e.ret.failed = true → strict e.step = true →
    st.failed = true ∧ ∀ x ∈ post, x.step = Step.Close

/-- The scan deciding `AbortsAtFailure`. -/
def abortsAtFailure (strict : Step → Bool) (failed : Bool) : List Event → Bool
  | [] => true
  | e :: es =>
    (!(e.ret.failed && strict e.step) || (failed && es.all (fun x => x.step.isClose))) &&
      abortsAtFailure strict failed es

def Step.isCheckVector : Step → Bool
  | .CheckVector => true
  | _ => false

def Step.stopsQuerier : Step → Bool
  | .StopService name => name == "querier"
  | _ => false

/-- A failed comparison of the result vector marks the test failed and the
script goes on: the next step executed is `StopService("querier")`. -/
def VectorMismatchGoesOn (st : TestState) : Prop :=
  ∀ pre e post, st.trace = pre ++ e :: post → e.step = Step.CheckVector →
    e.ret.failed = true →
    st.failed = true ∧ ∃ x rest, post = x :: rest ∧ x.step = Step.StopService "querier"

/-- The scan deciding `VectorMismatchGoesOn`. -/
def vectorMismatchGoesOn (failed : Bool) : List Event → Bool
  | [] => true
  | e :: es =>
    (!(e.step.isCheckVector && e.ret.failed) ||
      (failed && match es with
        | x :: _ => x.step.stopsQuerier
        | [] => false)) && vectorMismatchGoesOn failed es

/-- `Close` was executed exactly once, as the last step. -/
def ClosedOnceAtEnd (t : List Event) : Prop :=
  ∃ pre c, t = pre ++ [c] ∧ c.step = Step.Close ∧ ∀ x ∈ pre, x.step ≠ Step.Close

/-- The scan deciding `ClosedOnceAtEnd`. -/
def closedOnceAtEnd : List Event → Bool
  | [] => false
  | [e] => e.step.isClose
  | e :: es => !e.step.isClose && closedOnceAtEnd es

def isPush (e : Event) : Bool :=
  match e.step with
  | .Push _ => true
  | _ => false

def isQuery (e : Event) : Bool :=
  match e.step with
  | .Query _ _ => true
  | _ => false

/-- `WaitMetric("cortex_ring_tokens_total", 512)` on `service` returned without error. -/
def ringConfirmed (service : String) (e : Event) : Bool :=
  match e.step with
  | .WaitMetric s m v =>
    s == service && m == "cortex_ring_tokens_total" && v == 512 && !e.ret.failed
  | _ => false

def Role.isQuerier : Role → Bool
  | .querier => true
  | _ => false

def Role.isIngester : Role → Bool
  | .ingester => true
  | _ => false

/-- `StartService` of a querier named "querier" returned without error. -/
def querierStarted (e : Event) : Bool :=
  match e.step with
  | .StartService svc => svc.role.isQuerier && svc.name == "querier" && !e.ret.failed
  | _ => false

/-- The service named "querier" was started or stopped, successfully or not. -/
def querierTouched (e : Event) : Bool :=
  match e.step with
  | .StartService svc => svc.name == "querier"
  | .StopService name => name == "querier"
  | _ => false

def stopsIngester1 (e : Event) : Bool :=
  match e.step with
  | .StopService name => name == "ingester-1"
  | _ => false

/-- `StopService("ingester-1")` returned without error. -/
def ingester1Stopped (e : Event) : Bool :=
  stopsIngester1 e && !e.ret.failed

/-- `Push` returned a nil error and a response of status 200. -/
def pushed200 (e : Event) : Bool :=
  match e.step, e.ret with
  | .Push _, .push (some res) none => decide ((200 : Int) = res.StatusCode)
  | _, _ => false

/-- `StartService` of the ingester "ingester-2" on the current image with
`-ingester.join-after` set to `10s` returned without error. -/
def ingester2Started (e : Event) : Bool :=
  match e.step with
  | .StartService svc =>
    svc.role.isIngester && svc.name == "ingester-2" && svc.image == "" &&
      svc.flags.lookup "-ingester.join-after" == some "10s" && !e.ret.failed
  | _ => false

/-- A querier is started or a query is issued. -/
def entersValidation (e : Event) : Bool :=
  match e.step with
  | .StartService svc => svc.role.isQuerier
  | .Query _ _ => true
  | _ => false

/-- The steps the claim about aborting names: all but the vector comparison. -/
def Step.aborting (s : Step) : Bool := !s.isCheckVector

/-! ## The client -/

theorem NewClient_ok {lib : Lib} {d q T : String} {c : Client} (h : NewClient lib d q T = .ok c) :
    c = { distributorAddress := d, timeout := 5 * Second,
          querierClient := { config := { Address := "http://" ++ q ++ "/api/prom",
                                         RoundTripper := { orgID := T } } },
          orgID := T } := by
  unfold NewClient promapiNewClient at h
  split at h
  · cases h
  · rename_i api hapi
    split at hapi
    · cases hapi
    · cases hapi; cases h; rfl

theorem validMethod_POST : validMethod "POST" = true := by decide

theorem canon_ContentEncoding : CanonicalMIMEHeaderKey "Content-Encoding" = "Content-Encoding" := by
  decide

theorem canon_ContentType : CanonicalMIMEHeaderKey "Content-Type" = "Content-Type" := by decide

theorem canon_Version : CanonicalMIMEHeaderKey "X-Prometheus-Remote-Write-Version"
    = "X-Prometheus-Remote-Write-Version" := by decide

theorem canon_OrgID : CanonicalMIMEHeaderKey "X-Scope-OrgID" = "X-Scope-Orgid" := by decide

/-- The request `Push` builds from the compressed payload. -/
theorem Push_eq (lib : Lib) (c : Client) (ts : List TimeSeries) (w : World) :
    c.Push lib ts w =
      match lib.protoMarshal { Timeseries := ts } with
      | .error err => ((none, some err), w)
      | .ok data =>
        match lib.urlParse ("http://" ++ c.distributorAddress ++ "/api/prom/push") with
        | some err => ((none, some err), w)
        | none =>
          let req : Request :=
            { Method := "POST", URL := "http://" ++ c.distributorAddress ++ "/api/prom/push",
              Body := lib.snappyEncode data,
              Header := (((Header.empty.Add "Content-Encoding" "snappy").Set "Content-Type"
                "application/x-protobuf").Set "X-Prometheus-Remote-Write-Version" "0.1.0").Set
                "X-Scope-OrgID" c.orgID,
              ctx := { deadline := some (w.clock + c.timeout) } }
          match lib.clientDo w.done req with
          | .error err _ => ((none, some err), { w with done := w.done ++ [req] })
          | .ok res =>
            ((some { res with Body := res.Body.Close }, none), { w with done := w.done ++ [req] }) := by
  unfold Client.Push NewRequest httpClientDo
  rw [validMethod_POST]
  cases lib.protoMarshal { Timeseries := ts } with
  | error e => rfl
  | ok data =>
    simp only [if_true]
    cases lib.urlParse ("http://" ++ c.distributorAddress ++ "/api/prom/push") with
    | some e => rfl
    | none =>
      simp only [Request.WithContext, Context.WithTimeout, Context.Background]
      split <;> rename_i h <;> simp only [Prod.mk.injEq] at h <;> obtain ⟨h1, h2⟩ := h <;>
        subst h2 <;> simp only [h1]

/-- The header `Push` puts on its request. -/
theorem pushHeader_apply (T : String) (k : String) :
    ((((Header.empty.Add "Content-Encoding" "snappy").Set "Content-Type"
        "application/x-protobuf").Set "X-Prometheus-Remote-Write-Version" "0.1.0").Set
        "X-Scope-OrgID" T) k =
      if k = "X-Scope-Orgid" then some [T]
      else if k = "X-Prometheus-Remote-Write-Version" then some ["0.1.0"]
      else if k = "Content-Type" then some ["application/x-protobuf"]
      else if k = "Content-Encoding" then some ["snappy"]
      else none := by
  simp only [Header.Set, Header.Add, Header.empty, canon_ContentEncoding, canon_ContentType,
    canon_Version, canon_OrgID, Option.getD_none, List.nil_append]

/-- C1 (amended): for a client built by `NewClient(d, q, T)` and a batch `ts`
that marshals to `data`, `Push(ts)` hands the transport nothing when
`http.NewRequest` rejects the push URL, and when it accepts the URL exactly one
request: method POST, URL `http://d/api/prom/push`, body the snappy encoding of
`data`, and the headers Content-Encoding = [snappy],
Content-Type = [application/x-protobuf],
X-Prometheus-Remote-Write-Version = [0.1.0], X-Scope-OrgID = [T], no other key
of the header map being set. -/
theorem Push_request_wire_format (lib : Lib) (d q T : String) (c : Client)
    (ts : List TimeSeries) (data : Bytes) (w : World)
    (hc : NewClient lib d q T = .ok c)
    (hm : lib.protoMarshal { Timeseries := ts } = .ok data) :
    (lib.urlParse ("http://" ++ d ++ "/api/prom/push") ≠ none →
      (c.Push lib ts w).2.done = w.done) ∧
    (lib.urlParse ("http://" ++ d ++ "/api/prom/push") = none →
      ∃ req, (c.Push lib ts w).2.done = w.done ++ [req] ∧
        req.Method = "POST" ∧
        req.URL = "http://" ++ d ++ "/api/prom/push" ∧
        req.Body = lib.snappyEncode data ∧
        req.Header.Values "Content-Encoding" = ["snappy"] ∧
        req.Header.Values "Content-Type" = ["application/x-protobuf"] ∧
        req.Header.Values "X-Prometheus-Remote-Write-Version" = ["0.1.0"] ∧
        req.Header.Values "X-Scope-OrgID" = [T] ∧
        ∀ k, k ∉ [CanonicalMIMEHeaderKey "Content-Encoding",
                  CanonicalMIMEHeaderKey "Content-Type",
                  CanonicalMIMEHeaderKey "X-Prometheus-Remote-Write-Version",
                  CanonicalMIMEHeaderKey "X-Scope-OrgID"] → req.Header k = none) := by
  have hcl := NewClient_ok hc
  subst hcl
  rw [Push_eq]
  simp only [hm]
  constructor
  · intro hu
    cases hp : lib.urlParse ("http://" ++ d ++ "/api/prom/push") with
    | none => exact absurd hp hu
    | some e => rfl
  · intro hu
    simp only [hu]
    have h1 : Header.Values ((((Header.empty.Add "Content-Encoding" "snappy").Set "Content-Type"
        "application/x-protobuf").Set "X-Prometheus-Remote-Write-Version" "0.1.0").Set
        "X-Scope-OrgID" T) "Content-Encoding" = ["snappy"] := by
      simp [Header.Values, pushHeader_apply, canon_ContentEncoding]
    have h2 : Header.Values ((((Header.empty.Add "Content-Encoding" "snappy").Set "Content-Type"
        "application/x-protobuf").Set "X-Prometheus-Remote-Write-Version" "0.1.0").Set
        "X-Scope-OrgID" T) "Content-Type" = ["application/x-protobuf"] := by
      simp [Header.Values, pushHeader_apply, canon_ContentType]
    have h3 : Header.Values ((((Header.empty.Add "Content-Encoding" "snappy").Set "Content-Type"
        "application/x-protobuf").Set "X-Prometheus-Remote-Write-Version" "0.1.0").Set
        "X-Scope-OrgID" T) "X-Prometheus-Remote-Write-Version" = ["0.1.0"] := by
      simp [Header.Values, pushHeader_apply, canon_Version]
    have h4 : Header.Values ((((Header.empty.Add "Content-Encoding" "snappy").Set "Content-Type"
        "application/x-protobuf").Set "X-Prometheus-Remote-Write-Version" "0.1.0").Set
        "X-Scope-OrgID" T) "X-Scope-OrgID" = [T] := by
      simp [Header.Values, pushHeader_apply, canon_OrgID]
    have h5 : ∀ k, k ∉ [CanonicalMIMEHeaderKey "Content-Encoding",
        CanonicalMIMEHeaderKey "Content-Type",
        CanonicalMIMEHeaderKey "X-Prometheus-Remote-Write-Version",
        CanonicalMIMEHeaderKey "X-Scope-OrgID"] →
        ((((Header.empty.Add "Content-Encoding" "snappy").Set "Content-Type"
        "application/x-protobuf").Set "X-Prometheus-Remote-Write-Version" "0.1.0").Set
        "X-Scope-OrgID" T) k = none := by
      intro k hk
      simp only [canon_ContentEncoding, canon_ContentType, canon_Version, canon_OrgID,
        List.mem_cons, List.mem_singleton, List.not_mem_nil, or_false, not_or] at hk
      simp [pushHeader_apply, hk.1, hk.2.1, hk.2.2.1, hk.2.2.2]
    split <;> exact ⟨_, rfl, rfl, rfl, rfl, h1, h2, h3, h4, h5⟩

/-- A closed instance of `Push_request_wire_format`: the request the driver's
client sends for the empty batch. -/
theorem Push_request_wire_format_witness :
    NewClient okLib "distributor:80" "querier:80" "user-1" = .ok client0 ∧
    okLib.protoMarshal { Timeseries := [] } = .ok [0] ∧
    okLib.urlParse ("http://" ++ "distributor:80" ++ "/api/prom/push") = none ∧
    ∃ req, (client0.Push okLib [] world0).2.done = world0.done ++ [req] ∧
      req.Method = "POST" ∧
      req.URL = "http://" ++ "distributor:80" ++ "/api/prom/push" ∧
      req.Body = okLib.snappyEncode [0] ∧
      req.Header.Values "Content-Encoding" = ["snappy"] ∧
      req.Header.Values "Content-Type" = ["application/x-protobuf"] ∧
      req.Header.Values "X-Prometheus-Remote-Write-Version" = ["0.1.0"] ∧
      req.Header.Values "X-Scope-OrgID" = ["user-1"] ∧
      ∀ k, k ∉ [CanonicalMIMEHeaderKey "Content-Encoding",
                CanonicalMIMEHeaderKey "Content-Type",
                CanonicalMIMEHeaderKey "X-Prometheus-Remote-Write-Version",
                CanonicalMIMEHeaderKey "X-Scope-OrgID"] → req.Header k = none :=
  ⟨rfl, rfl, rfl, (Push_request_wire_format okLib "distributor:80" "querier:80" "user-1" client0
    [] [0] world0 rfl rfl).2 rfl⟩

theorem badHost_urlParse :
    badHostLib.urlParse ("http://" ++ badHostClient.distributorAddress ++ "/api/prom/push")
      = some "invalid character in host name" := by
  decide

/-- C1 (counterexample): `NewClient` takes the distributor address "bad host"
unchecked and the empty batch marshals, yet `http.NewRequest` rejects the push
URL: `Push` returns an error and hands the transport no request. -/
theorem Push_sends_nothing_for_bad_host :
    NewClient badHostLib "bad host" "querier:80" "user-1" = .ok badHostClient ∧
    badHostLib.protoMarshal { Timeseries := [] } = .ok [0] ∧
    (badHostClient.Push badHostLib [] world0).1
      = (none, some "invalid character in host name") ∧
    (badHostClient.Push badHostLib [] world0).2.done = [] ∧
    ¬ ∃ req, (badHostClient.Push badHostLib [] world0).2.done = world0.done ++ [req] := by
  have hp : badHostClient.Push badHostLib [] world0
      = ((none, some "invalid character in host name"), world0) := by
    rw [Push_eq]
    simp only [show badHostLib.protoMarshal { Timeseries := [] } = .ok [0] from rfl,
      badHost_urlParse]
  have hn : NewClient badHostLib "bad host" "querier:80" "user-1" = .ok badHostClient := by
    have hq : badHostLib.urlParse ("http://" ++ "querier:80" ++ "/api/prom") = none := by decide
    unfold NewClient promapiNewClient
    simp only [hq]
    rfl
  refine ⟨hn, rfl, ?_, ?_, ?_⟩
  · rw [hp]
  · rw [hp]; rfl
  · rw [hp]
    rintro ⟨req, h⟩
    have := congrArg List.length h
    simp [world0] at this

/-- C2: `Push` returns a non-nil error exactly when marshalling fails, building
the request fails, or the one transport call fails, and then its response is
nil. When marshalling and building the request succeed, `Push` makes the
transport call: an error of that call is the error returned, and a response it
delivers is returned with a nil error, its status code, header and body bytes
unchanged, whatever the code is. -/
theorem Push_error_iff_failure (lib : Lib) (c : Client) (ts : List TimeSeries) (w : World) :
    ((c.Push lib ts w).1.2 ≠ none ↔
      ((∃ e, lib.protoMarshal { Timeseries := ts } = .error e) ∨
       (∃ data e, lib.protoMarshal { Timeseries := ts } = .ok data ∧
          NewRequest lib "POST" ("http://" ++ c.distributorAddress ++ "/api/prom/push")
            (lib.snappyEncode data) = .error e) ∨
       (∃ req e res, (c.Push lib ts w).2.done = w.done ++ [req] ∧
          lib.clientDo w.done req = .error e res))) ∧
    ((c.Push lib ts w).1.2 ≠ none → (c.Push lib ts w).1.1 = none) ∧
    (∀ data r0, lib.protoMarshal { Timeseries := ts } = .ok data →
      NewRequest lib "POST" ("http://" ++ c.distributorAddress ++ "/api/prom/push")
        (lib.snappyEncode data) = .ok r0 →
      ∃ req, (c.Push lib ts w).2.done = w.done ++ [req] ∧
        (∀ e res, lib.clientDo w.done req = .error e res →
          (c.Push lib ts w).1 = (none, some e)) ∧
        (∀ res, lib.clientDo w.done req = .ok res →
          (c.Push lib ts w).1.2 = none ∧
          ∃ res1, (c.Push lib ts w).1.1 = some res1 ∧ res1.StatusCode = res.StatusCode ∧
            res1.Header = res.Header ∧ res1.Body.data = res.Body.data)) ∧
    (∀ req res, (c.Push lib ts w).2.done = w.done ++ [req] →
      lib.clientDo w.done req = .ok res →
      (c.Push lib ts w).1.2 = none ∧
      ∃ res1, (c.Push lib ts w).1.1 = some res1 ∧ res1.StatusCode = res.StatusCode) := by
  rw [Push_eq]
  unfold NewRequest
  rw [validMethod_POST]
  cases hm : lib.protoMarshal { Timeseries := ts } with
  | error e => simp
  | ok data =>
    cases hu : lib.urlParse ("http://" ++ c.distributorAddress ++ "/api/prom/push") with
    | some e => simp [hu]
    | none =>
      simp only [hu, if_true]
      split
      · rename_i err res hdo
        refine ⟨?_, ?_, ?_, ?_⟩
        · simp only [ne_eq, reduceCtorEq, not_false_eq_true, false_or, true_iff, exists_false,
            and_false]
          exact ⟨_, err, res, rfl, hdo⟩
        · intro _; rfl
        · intro data1 r0 hd _
          cases hd
          refine ⟨_, rfl, ?_, ?_⟩
          · intro e res1 hdo1
            rw [hdo] at hdo1
            cases hdo1
            rfl
          · intro res1 hdo1
            rw [hdo] at hdo1
            cases hdo1
        · intro req res1 hreq hok
          have := List.append_cancel_left hreq
          cases this
          rw [hdo] at hok
          cases hok
      · rename_i res hdo
        refine ⟨?_, ?_, ?_, ?_⟩
        · simp only [ne_eq, not_true_eq_false, reduceCtorEq, exists_false, and_false, false_or,
            false_iff, not_exists]
          intro req e r1 hreq
          have := List.append_cancel_left hreq.1
          cases this
          have h2 := hreq.2
          rw [hdo] at h2
          cases h2
        · intro h; exact absurd rfl h
        · intro data1 r0 hd _
          cases hd
          refine ⟨_, rfl, ?_, ?_⟩
          · intro e res1 hdo1
            rw [hdo] at hdo1
            cases hdo1
          · intro res1 hdo1
            rw [hdo] at hdo1
            cases hdo1
            exact ⟨rfl, _, rfl, rfl, rfl, rfl⟩
        · intro req res1 hreq hok
          have := List.append_cancel_left hreq
          cases this
          rw [hdo] at hok
          cases hok
          exact ⟨rfl, _, rfl, rfl⟩

/-- A closed instance of `Push_error_iff_failure`: the distributor answers 500,
and `Push` returns that response with a nil error. -/
theorem Push_error_iff_failure_witness :
    (client0.Push status500Lib [] world0).1.2 = none ∧
    ∃ res1, (client0.Push status500Lib [] world0).1.1 = some res1 ∧ res1.StatusCode = 500 ∧
      res1.Body.data = [1] := by
  obtain ⟨req, _, _, h⟩ := (Push_error_iff_failure status500Lib client0 [] world0).2.2.1 [0]
    { Method := "POST", URL := "http://" ++ "distributor:80" ++ "/api/prom/push",
      Body := status500Lib.snappyEncode [0], Header := Header.empty,
      ctx := Context.Background } rfl (by unfold NewRequest; rw [validMethod_POST]; rfl)
  obtain ⟨h1, res1, h2, h3, _, h5⟩ := h
    { StatusCode := 500, Header := Header.empty, Body := { data := [1], closed := false } } rfl
  exact ⟨h1, res1, h2, h3, h5⟩

/-- C3 (the code departs from the claim): on the client the driver builds, the
request of `Push` runs under a context whose deadline is the clock plus five
seconds, and the call of `Query` runs under a context with no deadline at all. -/
theorem Query_runs_without_deadline :
    NewClient okLib "distributor:80" "querier:80" "user-1" = .ok client0 ∧
    (client0.Push okLib [] world0).2.done.map (fun r => r.ctx.deadline)
      = [some (world0.clock + 5 * Second)] ∧
    (client0.Query okLib "series_1" 0 world0).2.queries.map (fun r => r.ctx.deadline)
      = [none] := by
  refine ⟨rfl, ?_, rfl⟩
  rw [Push_eq]
  rfl

/-- C4: a client built by `NewClient(d, q, T)` speaks for the tenant `T` only.
Whenever the batch marshals and the push URL is accepted, `Push` submits a
request and that request has X-Scope-OrgID = [T]; no request `Push` submits
has any other value. Whatever request the querier transport is handed, and
whatever tenant values it carried, exactly one request is forwarded to the next
transport, it has X-Scope-OrgID = [T], differs from the one handed in only in
its header, and its answer is what `RoundTrip` returns. -/
theorem client_requests_scoped_to_tenant (lib : Lib) (d q T : String) (c : Client)
    (hc : NewClient lib d q T = .ok c) :
    (∀ ts w data, lib.protoMarshal { Timeseries := ts } = .ok data →
      lib.urlParse ("http://" ++ d ++ "/api/prom/push") = none →
      ∃ req, (c.Push lib ts w).2.done = w.done ++ [req] ∧
        req.Header.Values "X-Scope-OrgID" = [T]) ∧
    (∀ ts w req, (c.Push lib ts w).2.done = w.done ++ [req] →
      req.Header.Values "X-Scope-OrgID" = [T]) ∧
    (∀ req w, ∃ fwd,
      (c.querierClient.config.RoundTripper.RoundTrip lib req w).2.forwarded
        = w.forwarded ++ [fwd] ∧
      fwd.Header.Values "X-Scope-OrgID" = [T] ∧
      fwd.Method = req.Method ∧ fwd.URL = req.URL ∧ fwd.Body = req.Body ∧ fwd.ctx = req.ctx ∧
      (c.querierClient.config.RoundTripper.RoundTrip lib req w).1
        = lib.defaultTransport w.forwarded fwd) := by
  have hcl := NewClient_ok hc
  subst hcl
  have h4 : ∀ r : Request, r.Header = ((((Header.empty.Add "Content-Encoding" "snappy").Set
      "Content-Type" "application/x-protobuf").Set "X-Prometheus-Remote-Write-Version"
      "0.1.0").Set "X-Scope-OrgID" T) → r.Header.Values "X-Scope-OrgID" = [T] := by
    intro r hr
    simp [Header.Values, hr, pushHeader_apply, canon_OrgID]
  refine ⟨?_, ?_, ?_⟩
  · intro ts w data hm hu
    rw [Push_eq]
    simp only [hm, hu]
    split <;> exact ⟨_, rfl, h4 _ rfl⟩
  · intro ts w req
    rw [Push_eq]
    cases lib.protoMarshal { Timeseries := ts } with
    | error e =>
      intro h
      have := congrArg List.length h
      simp at this
    | ok data =>
      cases lib.urlParse ("http://" ++ d ++ "/api/prom/push") with
      | some e =>
        intro h
        have := congrArg List.length h
        simp at this
      | none =>
        simp only
        split <;> intro h <;> have h1 := List.append_cancel_left h <;> cases h1 <;>
          exact h4 _ rfl
  · intro req w
    refine ⟨{ req with Header := req.Header.Set "X-Scope-OrgID" T }, rfl, ?_, rfl, rfl, rfl, rfl,
      rfl⟩
    simp [Header.Values, Header.Set]

/-- A closed instance of `client_requests_scoped_to_tenant`: the driver's client
submits a push request for "user-1", and a query request that arrives carrying
"user-2" and "user-3" is forwarded for "user-1" alone. -/
theorem client_requests_scoped_to_tenant_witness :
    NewClient okLib "distributor:80" "querier:80" "user-1" = .ok client0 ∧
    (∃ req, (client0.Push okLib [] world0).2.done = world0.done ++ [req] ∧
      req.Header.Values "X-Scope-OrgID" = ["user-1"]) ∧
    foreignRequest.Header.Values "X-Scope-OrgID" = ["user-2", "user-3"] ∧
    (∃ fwd,
      (client0.querierClient.config.RoundTripper.RoundTrip okLib foreignRequest world0).2.forwarded
        = world0.forwarded ++ [fwd] ∧
      fwd.Header.Values "X-Scope-OrgID" = ["user-1"]) := by
  have h := client_requests_scoped_to_tenant okLib "distributor:80" "querier:80" "user-1"
    client0 rfl
  refine ⟨rfl, h.1 [] world0 [0] rfl rfl, ?_, ?_⟩
  · simp [Header.Values, foreignRequest, Header.Add, Header.empty, canon_OrgID]
  · obtain ⟨fwd, h1, h2, _⟩ := h.2.2 foreignRequest world0
    exact ⟨fwd, h1, h2⟩

/-- C5: the client never retries. One call of `Push` adds no request to the
transport log when marshalling or building the request fails and exactly one
otherwise, and an error of that one transport call is the error `Push` returns;
one call of `Query` adds exactly one invocation to the query API log and
returns that invocation's value and error. The transport and the API may answer
a second attempt differently from the first, so a retry would show. -/
theorem client_never_retries (lib : Lib) (c : Client) (ts : List TimeSeries) (q : String)
    (t : Int) (w : World) :
    (((∃ e, lib.protoMarshal { Timeseries := ts } = .error e) ∨
      (∃ data e, lib.protoMarshal { Timeseries := ts } = .ok data ∧
        NewRequest lib "POST" ("http://" ++ c.distributorAddress ++ "/api/prom/push")
          (lib.snappyEncode data) = .error e)) →
      (c.Push lib ts w).2.done = w.done) ∧
    ((∃ data r, lib.protoMarshal { Timeseries := ts } = .ok data ∧
        NewRequest lib "POST" ("http://" ++ c.distributorAddress ++ "/api/prom/push")
          (lib.snappyEncode data) = .ok r) →
      ∃ req, (c.Push lib ts w).2.done = w.done ++ [req]) ∧
    (∀ req e res, (c.Push lib ts w).2.done = w.done ++ [req] →
      lib.clientDo w.done req = .error e res → (c.Push lib ts w).1 = (none, some e)) ∧
    (∃ call : QueryCall, (c.Query lib q t w).2.queries = w.queries ++ [call] ∧
      call.query = q ∧ call.ts = t ∧ call.api = c.querierClient ∧
      (c.Query lib q t w).1 = lib.apiQuery w.queries call) := by
  refine ⟨?_, ?_, ?_, ⟨_, rfl, rfl, rfl, rfl, rfl⟩⟩
  · rw [Push_eq]
    unfold NewRequest
    rw [validMethod_POST]
    rintro (⟨e, he⟩ | ⟨data, e, hd, he⟩)
    · simp [he]
    · simp only [hd]
      cases hu : lib.urlParse ("http://" ++ c.distributorAddress ++ "/api/prom/push") with
      | some e1 => rfl
      | none => simp [hu] at he
  · rw [Push_eq]
    unfold NewRequest
    rw [validMethod_POST]
    rintro ⟨data, r, hd, hr⟩
    simp only [hd]
    cases hu : lib.urlParse ("http://" ++ c.distributorAddress ++ "/api/prom/push") with
    | some e1 => simp [hu] at hr
    | none =>
      simp only
      split <;> exact ⟨_, rfl⟩
  · intro req e res
    rw [Push_eq]
    cases lib.protoMarshal { Timeseries := ts } with
    | error e1 =>
      intro h
      have := congrArg List.length h
      simp at this
    | ok data =>
      cases lib.urlParse ("http://" ++ c.distributorAddress ++ "/api/prom/push") with
      | some e1 =>
        intro h
        have := congrArg List.length h
        simp at this
      | none =>
        simp only
        split <;> rename_i hdo <;> intro h <;> have h1 := List.append_cancel_left h <;>
          cases h1 <;> intro h2 <;> rw [hdo] at h2 <;> cases h2
        rfl

/-- C10: whenever `Push` returns a non-nil response, the body of that response
is already closed, whatever the status code; status code and headers are those
the transport delivered. -/
theorem Push_returns_closed_body (lib : Lib) (c : Client) (ts : List TimeSeries) (w : World)
    (res : Response) (h : (c.Push lib ts w).1.1 = some res) :
    res.Body.closed = true ∧
    ∃ req got, (c.Push lib ts w).2.done = w.done ++ [req] ∧
      lib.clientDo w.done req = .ok got ∧
      res.StatusCode = got.StatusCode ∧ res.Header = got.Header ∧
      res.Body.data = got.Body.data := by
  rw [Push_eq] at h ⊢
  cases hm : lib.protoMarshal { Timeseries := ts } with
  | error e => simp [hm] at h
  | ok data =>
    cases hu : lib.urlParse ("http://" ++ c.distributorAddress ++ "/api/prom/push") with
    | some e => simp [hm, hu] at h
    | none =>
      simp only [hm, hu] at h ⊢
      split at h
      · simp at h
      · rename_i got hdo
        simp only [Option.some.injEq] at h
        subst h
        refine ⟨rfl, _, got, ?_, hdo, rfl, rfl, rfl⟩
        simp only [hdo]

/-- A closed instance of `Push_returns_closed_body`. -/
theorem Push_returns_closed_body_witness :
    (client0.Push okLib [] world0).1.1
      = some { StatusCode := 200, Header := Header.empty, Body := { data := [], closed := true } } ∧
    ((true = true) ∧
    ∃ req got, (client0.Push okLib [] world0).2.done = world0.done ++ [req] ∧
      okLib.clientDo world0.done req = .ok got ∧
      (200 : Int) = got.StatusCode ∧ Header.empty = got.Header ∧
      ([] : Bytes) = got.Body.data) :=
  ⟨by rw [Push_eq]; rfl,
   Push_returns_closed_body okLib client0 [] world0
     { StatusCode := 200, Header := Header.empty, Body := { data := [], closed := true } }
     (by rw [Push_eq]; rfl)⟩

/-! ## The scans decide the run properties -/

theorem onlyAfter_sound (p q : Event → Bool) :
    ∀ (t : List Event) (seen : Bool), onlyAfter p q seen t = true →
      ∀ pre e post, t = pre ++ e :: post → p e = true → seen = true ∨ ∃ x ∈ pre, q x = true := by
  intro t
  induction t with
  | nil =>
    intro seen _ pre e post h
    simp at h
  | cons e0 es ih =>
    intro seen hc pre e post h hp
    simp only [onlyAfter, Bool.and_eq_true, Bool.or_eq_true, Bool.not_eq_true'] at hc
    cases pre with
    | nil =>
      simp only [List.nil_append, List.cons.injEq] at h
      obtain ⟨h1, _⟩ := h
      subst h1
      rcases hc.1 with h2 | h2
      · rw [hp] at h2; cases h2
      · exact Or.inl h2
    | cons a pre1 =>
      simp only [List.cons_append, List.cons.injEq] at h
      obtain ⟨h1, h2⟩ := h
      subst h1
      have hc2 := hc.2
      rcases ih (seen || q e0) hc2 pre1 e post h2 hp with h3 | ⟨x, hx, hq⟩
      · simp only [Bool.or_eq_true] at h3
        rcases h3 with h3 | h3
        · exact Or.inl h3
        · exact Or.inr ⟨e0, List.mem_cons_self _ _, h3⟩
      · exact Or.inr ⟨x, List.mem_cons_of_mem _ hx, hq⟩

theorem OnlyAfter_of_scan (p q : Event → Bool) (t : List Event)
    (h : onlyAfter p q false t = true) : OnlyAfter p q t := by
  intro pre e post ht hp
  rcases onlyAfter_sound p q t false h pre e post ht hp with h1 | h1
  · cases h1
  · exact h1

/-- What the phase of `sincePhase` knows about the steps scanned so far. -/
theorem sincePhase_invariant (s q r : Event → Bool) (ph : Nat) (pre : List Event) (e : Event)
    (h1 : ph = 1 → ∃ a x b, pre = a ++ x :: b ∧ s x = true ∧ ∀ z ∈ b, r z = false)
    (h2 : ph = 2 → ∃ a x b y c, pre = a ++ x :: (b ++ y :: c) ∧ s x = true ∧ q y = true ∧
      (∀ z ∈ b, r z = false) ∧ (∀ z ∈ c, r z = false)) :
    (sincePhase s q r ph e = 1 →
      ∃ a x b, pre ++ [e] = a ++ x :: b ∧ s x = true ∧ ∀ z ∈ b, r z = false) ∧
    (sincePhase s q r ph e = 2 →
      ∃ a x b y c, pre ++ [e] = a ++ x :: (b ++ y :: c) ∧ s x = true ∧ q y = true ∧
        (∀ z ∈ b, r z = false) ∧ (∀ z ∈ c, r z = false)) := by
  unfold sincePhase
  by_cases hs : s e = true
  · rw [if_pos hs]
    exact ⟨fun _ => ⟨pre, e, [], rfl, hs, by simp⟩, fun h => by cases h⟩
  · rw [if_neg hs]
    by_cases hr : r e = true
    · rw [if_pos hr]
      exact ⟨fun h => (by cases h), fun h => (by cases h)⟩
    · have hr0 : r e = false := by simpa using hr
      rw [if_neg hr]
      by_cases hq : (q e && ph == 1) = true
      · rw [if_pos hq]
        simp only [Bool.and_eq_true, beq_iff_eq] at hq
        refine ⟨fun h => (by cases h), fun _ => ?_⟩
        obtain ⟨a, x, b, hpre, hx, hb⟩ := h1 hq.2
        exact ⟨a, x, b, e, [], by simp [hpre], hx, hq.1, hb, by simp⟩
      · rw [if_neg hq]
        constructor
        · intro hph
          obtain ⟨a, x, b, hpre, hx, hb⟩ := h1 hph
          refine ⟨a, x, b ++ [e], by simp [hpre], hx, ?_⟩
          intro z hz
          rcases List.mem_append.1 hz with hz | hz
          · exact hb z hz
          · simp only [List.mem_singleton] at hz
            subst hz
            exact hr0
        · intro hph
          obtain ⟨a, x, b, y, c, hpre, hx, hy, hb, hc⟩ := h2 hph
          refine ⟨a, x, b, y, c ++ [e], by simp [hpre], hx, hy, hb, ?_⟩
          intro z hz
          rcases List.mem_append.1 hz with hz | hz
          · exact hc z hz
          · simp only [List.mem_singleton] at hz
            subst hz
            exact hr0

theorem onlyAfterSince_sound (p s q r : Event → Bool) :
    ∀ (t : List Event) (ph : Nat) (pre0 : List Event),
      (ph = 1 → ∃ a x b, pre0 = a ++ x :: b ∧ s x = true ∧ ∀ z ∈ b, r z = false) →
      (ph = 2 → ∃ a x b y c, pre0 = a ++ x :: (b ++ y :: c) ∧ s x = true ∧ q y = true ∧
        (∀ z ∈ b, r z = false) ∧ (∀ z ∈ c, r z = false)) →
      onlyAfterSince p s q r ph t = true →
      ∀ pre e post, t = pre ++ e :: post → p e = true →
        ∃ a x b y c, pre0 ++ pre = a ++ x :: (b ++ y :: c) ∧ s x = true ∧ q y = true ∧
          (∀ z ∈ b, r z = false) ∧ (∀ z ∈ c, r z = false) := by
  intro t
  induction t with
  | nil =>
    intro ph pre0 _ _ _ pre e post h
    simp at h
  | cons e0 es ih =>
    intro ph pre0 h1 h2 hc pre e post h hp
    simp only [onlyAfterSince, Bool.and_eq_true, Bool.or_eq_true, Bool.not_eq_true',
      beq_iff_eq] at hc
    cases pre with
    | nil =>
      simp only [List.nil_append, List.cons.injEq] at h
      obtain ⟨h3, _⟩ := h
      subst h3
      rcases hc.1 with h4 | h4
      · rw [hp] at h4; cases h4
      · simpa using h2 h4
    | cons a0 pre1 =>
      simp only [List.cons_append, List.cons.injEq] at h
      obtain ⟨h3, h4⟩ := h
      subst h3
      have hinv := sincePhase_invariant s q r ph pre0 e0 h1 h2
      have := ih (sincePhase s q r ph e0) (pre0 ++ [e0]) hinv.1 hinv.2 hc.2 pre1 e post h4 hp
      simpa using this

theorem OnlyAfterSince_of_scan (p s q r : Event → Bool) (t : List Event)
    (h : onlyAfterSince p s q r 0 t = true) : OnlyAfterSince p s q r t := by
  intro pre e post ht hp
  have := onlyAfterSince_sound p s q r t 0 [] (fun h0 => by cases h0) (fun h0 => by cases h0) h
    pre e post ht hp
  simpa using this

theorem Step.isClose_iff (s : Step) : s.isClose = true ↔ s = Step.Close := by
  cases s <;> simp [Step.isClose]

theorem abortsAtFailure_sound (strict : Step → Bool) (failed : Bool) :
    ∀ t : List Event, abortsAtFailure strict failed t = true →
      ∀ pre e post, t = pre ++ e :: post → e.ret.failed = true → strict e.step = true →
        failed = true ∧ ∀ x ∈ post, x.step = Step.Close := by
  intro t
  induction t with
  | nil =>
    intro _ pre e post h
    simp at h
  | cons e0 es ih =>
    intro hc pre e post h hf hs
    simp only [abortsAtFailure, Bool.and_eq_true, Bool.or_eq_true, Bool.not_eq_true',
      Bool.and_eq_false_imp, List.all_eq_true] at hc
    cases pre with
    | nil =>
      simp only [List.nil_append, List.cons.injEq] at h
      obtain ⟨h1, h2⟩ := h
      subst h1 h2
      rcases hc.1 with h3 | h3
      · have := h3 hf
        rw [hs] at this
        cases this
      · exact ⟨h3.1, fun x hx => (Step.isClose_iff _).1 (h3.2 x hx)⟩
    | cons a0 pre1 =>
      simp only [List.cons_append, List.cons.injEq] at h
      exact ih hc.2 pre1 e post h.2 hf hs

theorem AbortsAtFailure_of_scan (strict : Step → Bool) (st : TestState)
    (h : abortsAtFailure strict st.failed st.trace = true) : AbortsAtFailure strict st :=
  abortsAtFailure_sound strict st.failed st.trace h

theorem vectorMismatchGoesOn_sound (failed : Bool) :
    ∀ t : List Event, vectorMismatchGoesOn failed t = true →
      ∀ pre e post, t = pre ++ e :: post → e.step = Step.CheckVector → e.ret.failed = true →
        failed = true ∧ ∃ x rest, post = x :: rest ∧ x.step = Step.StopService "querier" := by
  intro t
  induction t with
  | nil =>
    intro _ pre e post h
    simp at h
  | cons e0 es ih =>
    intro hc pre e post h hs hf
    simp only [vectorMismatchGoesOn, Bool.and_eq_true, Bool.or_eq_true, Bool.not_eq_true',
      Bool.and_eq_false_imp] at hc
    cases pre with
    | nil =>
      simp only [List.nil_append, List.cons.injEq] at h
      obtain ⟨h1, h2⟩ := h
      subst h1 h2
      rcases hc.1 with h3 | h3
      · have := h3 (by rw [hs]; rfl)
        rw [hf] at this
        cases this
      · refine ⟨h3.1, ?_⟩
        cases es with
        | nil => simp at h3
        | cons x rest =>
          refine ⟨x, rest, rfl, ?_⟩
          have h4 := h3.2
          simp only at h4
          cases hx : x.step <;> simp [hx, Step.stopsQuerier] at h4
          rw [h4]
    | cons a0 pre1 =>
      simp only [List.cons_append, List.cons.injEq] at h
      exact ih hc.2 pre1 e post h.2 hs hf

theorem closedOnceAtEnd_sound :
    ∀ t : List Event, closedOnceAtEnd t = true → ClosedOnceAtEnd t := by
  intro t
  induction t with
  | nil => intro h; simp [closedOnceAtEnd] at h
  | cons e0 es ih =>
    intro h
    cases es with
    | nil =>
      simp only [closedOnceAtEnd] at h
      exact ⟨[], e0, rfl, (Step.isClose_iff _).1 h, by simp⟩
    | cons e1 es1 =>
      simp only [closedOnceAtEnd, Bool.and_eq_true, Bool.not_eq_true'] at h
      obtain ⟨pre, c, hpre, hc, hno⟩ := ih h.2
      refine ⟨e0 :: pre, c, by simp [hpre], hc, ?_⟩
      intro x hx
      rcases List.mem_cons.1 hx with hx | hx
      · subst hx
        intro hx0
        have := (Step.isClose_iff x.step).2 hx0
        rw [h.1] at this
        cases this
      · exact hno x hx

/-! ## Running the driver -/

theorem call_bind {β : Type} (env : Env) (step : Step) (f : Option Error → TestM β)
    (st : TestState) :
    (call env step >>= f) st =
      f (env.scenario st.trace.length step)
        { st with trace := st.trace ++
            [{ step := step, ret := .error (env.scenario st.trace.length step) }] } := rfl

theorem requireNoError_bind {β : Type} (err : Option Error) (f : Unit → TestM β)
    (st : TestState) :
    (requireNoError err >>= f) st =
      match err with
      | none => f () st
      | some _ => (none, { st with failed := true }) := by
  cases err <;> rfl

theorem requireNoError_apply (err : Option Error) (st : TestState) :
    requireNoError err st =
      match err with
      | none => (some (), st)
      | some _ => (none, { st with failed := true }) := by
  cases err <;> rfl

theorem failNow_apply {α : Type} (st : TestState) :
    (failNow : TestM α) st = (none, { st with failed := true }) := rfl

theorem newClient_bind {β : Type} (env : Env) (d q T : String)
    (f : Except Error Client → TestM β) (st : TestState) :
    (newClient env d q T >>= f) st =
      f (NewClient env.lib d q T)
        { st with trace := st.trace ++
            [{ step := .NewClient d q T,
               ret := .client (errorOf (NewClient env.lib d q T)) }] } := rfl

theorem push_bind {β : Type} (env : Env) (c : Client) (series : List TimeSeries)
    (f : Option Response × Option Error → TestM β) (st : TestState) :
    (push env c series >>= f) st =
      f (c.Push env.lib series st.world).1
        (TestState.mk (st.trace ++
            [Event.mk (Step.Push series) (Ret.push (c.Push env.lib series st.world).fst.fst
                (c.Push env.lib series st.world).fst.snd)]) st.failed
          (c.Push env.lib series st.world).snd) := rfl

theorem query_bind {β : Type} (env : Env) (c : Client) (q : String) (ts : Int)
    (f : Value × Option Error → TestM β) (st : TestState) :
    (query env c q ts >>= f) st =
      f (c.Query env.lib q ts st.world).1
        (TestState.mk (st.trace ++
            [Event.mk (Step.Query q ts) (Ret.query (c.Query env.lib q ts st.world).fst.fst
                (c.Query env.lib q ts st.world).fst.snd)]) st.failed
          (c.Query env.lib q ts st.world).snd) := rfl

theorem requireEqual_bind {β : Type} (step : Step) (equal : Bool) (f : Unit → TestM β)
    (st : TestState) :
    (requireEqual step equal >>= f) st =
      match equal with
      | true => f () { st with trace := st.trace ++ [{ step := step, ret := .check true }] }
      | false => (none, { st with trace := st.trace ++ [{ step := step, ret := .check false }],
                                   failed := true }) := by
  cases equal <;> rfl

theorem assertEqual_bind {β : Type} (step : Step) (equal : Bool) (f : Unit → TestM β)
    (st : TestState) :
    (assertEqual step equal >>= f) st =
      match equal with
      | true => f () { st with trace := st.trace ++ [{ step := step, ret := .check true }] }
      | false => f () { st with trace := st.trace ++ [{ step := step, ret := .check false }],
                                failed := true } := by
  cases equal <;> rfl

theorem failNow_bind {α β : Type} (f : α → TestM β) (st : TestState) :
    ((failNow : TestM α) >>= f) st = (none, { st with failed := true }) := rfl

theorem requireOk_bind {α β : Type} (r : Except Error α) (f : α → TestM β) (st : TestState) :
    (requireOk r >>= f) st =
      match r with
      | .ok a => f a st
      | .error _ => (none, { st with failed := true }) := by
  cases r <;> rfl

theorem deref_bind {α β : Type} (p : Option α) (f : α → TestM β) (st : TestState) :
    (deref p >>= f) st =
      match p with
      | some a => f a st
      | none => (none, { st with failed := true }) := by
  cases p <;> rfl

theorem assertVector_bind {β : Type} (result : Value) (f : Vector → TestM β) (st : TestState) :
    (assertVector result >>= f) st =
      match result with
      | .vector v => f v st
      | _ => (none, { st with failed := true }) := by
  cases result <;> rfl

theorem bind_bind {α β γ : Type} (m : TestM α) (f : α → TestM β) (g : β → TestM γ) :
    (m >>= f) >>= g = m >>= fun a => f a >>= g := by
  funext st
  show (match (match m st with
      | (none, st1) => (none, st1)
      | (some a, st1) => f a st1) with
    | (none, st1) => (none, st1)
    | (some b, st1) => g b st1) = (match m st with
    | (none, st1) => (none, st1)
    | (some a, st1) => (f a >>= g) st1)
  rcases m st with ⟨_ | a, st1⟩ <;> rfl

theorem pure_bind_apply {α β : Type} (a : α) (f : α → TestM β) (st : TestState) :
    ((pure a : TestM α) >>= f) st = f a st := rfl

theorem withDefer_apply {α : Type} (cleanup : TestM Unit) (body : TestM α) (st : TestState) :
    withDefer cleanup body st = ((body st).1, (cleanup (body st).2).2) := rfl

theorem record_apply (step : Step) (ret : Ret) (st : TestState) :
    record step ret st =
      (some (), { st with trace := st.trace ++ [{ step := step, ret := ret }] }) := rfl

theorem pure_apply {α : Type} (a : α) (st : TestState) : (pure a : TestM α) st = (some a, st) :=
  rfl

set_option maxHeartbeats 4000000 in
/-- Every run passes every scan. -/
theorem run_scans (env : Env) (w : World) (st : TestState) (h : st = runTest env w) :
    abortsAtFailure Step.aborting st.failed st.trace = true ∧
    vectorMismatchGoesOn st.failed st.trace = true ∧
    onlyAfter isPush (ringConfirmed "distributor") false st.trace = true ∧
    onlyAfterSince isQuery querierStarted (ringConfirmed "querier") querierTouched 0 st.trace
      = true ∧
    onlyAfter stopsIngester1 pushed200 false st.trace = true ∧
    onlyAfter stopsIngester1 ingester2Started false st.trace = true ∧
    onlyAfter entersValidation ingester1Stopped false st.trace = true ∧
    (env.scenario 0 Step.NewScenario = none → closedOnceAtEnd st.trace = true) := by
  simp only [runTest, TestBackwardCompatibilityWithChunksStorage, testBody, forRange, queryWith,
    call_bind, requireNoError_bind, requireNoError_apply, failNow_apply, failNow_bind,
    newClient_bind, bind_bind, pure_bind_apply, requireOk_bind, deref_bind, assertVector_bind,
    push_bind, query_bind, requireEqual_bind, assertEqual_bind, withDefer_apply, record_apply,
    pure_apply, List.nil_append, List.cons_append, List.length_cons, List.length_nil,
    Nat.reduceAdd, zero_add] at h
  repeat' (split at h <;> try simp only [call_bind, requireNoError_bind, requireNoError_apply,
    failNow_apply, failNow_bind, newClient_bind, bind_bind, pure_bind_apply, requireOk_bind,
    deref_bind, assertVector_bind, push_bind, query_bind, requireEqual_bind, assertEqual_bind,
    withDefer_apply, record_apply, pure_apply, forRange, queryWith, List.nil_append,
    List.cons_append, List.length_cons, List.length_nil, Nat.reduceAdd, zero_add] at h)
  all_goals subst h
  all_goals try simp only [*]
  all_goals refine ⟨?_, ?_, ?_, ?_, ?_, ?_, ?_, ?_⟩
  all_goals try rfl
  all_goals try (intro _; rfl)
  all_goals try (intro hns; cases hns)
  all_goals try (simp only [onlyAfter, stopsIngester1, pushed200]; simp_all)

/-! ## The driver: what every run satisfies -/

/-- C6 (amended): in every run, a failure of any step other than the comparison
of the result vector marks the test failed and nothing but `Close` is executed
afterwards; a failed comparison of the result vector marks the test failed and
does not stop the script: the next step executed is `StopService("querier")`. -/
theorem failure_aborts_except_vector_mismatch (env : Env) (w : World) :
    AbortsAtFailure Step.aborting (runTest env w) ∧ VectorMismatchGoesOn (runTest env w) :=
  ⟨AbortsAtFailure_of_scan _ _ (run_scans env w _ rfl).1,
   vectorMismatchGoesOn_sound _ _ (run_scans env w _ rfl).2.1⟩

/-- C8: in every run, `Push` is executed only after
`WaitMetric("cortex_ring_tokens_total", 512)` on the distributor returned
without error, and each `Query` only after a querier was started without error
and `WaitMetric("cortex_ring_tokens_total", 512)` on the querier returned
without error later, the querier being neither restarted nor stopped since. -/
theorem data_plane_calls_after_ring_convergence (env : Env) (w : World) :
    OnlyAfter isPush (ringConfirmed "distributor") (runTest env w).trace ∧
    OnlyAfterSince isQuery querierStarted (ringConfirmed "querier") querierTouched
      (runTest env w).trace :=
  ⟨OnlyAfter_of_scan _ _ _ (run_scans env w _ rfl).2.2.1,
   OnlyAfterSince_of_scan _ _ _ _ _ (run_scans env w _ rfl).2.2.2.1⟩

/-- C9: in every run, `StopService("ingester-1")` is executed only after `Push`
returned status 200 with a nil error and after `StartService` of "ingester-2"
(current image, `-ingester.join-after` = `10s`) returned without error, and a
querier is started or a query issued only after `StopService("ingester-1")`
returned without error. -/
theorem validation_only_after_handoff (env : Env) (w : World) :
    OnlyAfter stopsIngester1 pushed200 (runTest env w).trace ∧
    OnlyAfter stopsIngester1 ingester2Started (runTest env w).trace ∧
    OnlyAfter entersValidation ingester1Stopped (runTest env w).trace :=
  ⟨OnlyAfter_of_scan _ _ _ (run_scans env w _ rfl).2.2.2.2.1,
   OnlyAfter_of_scan _ _ _ (run_scans env w _ rfl).2.2.2.2.2.1,
   OnlyAfter_of_scan _ _ _ (run_scans env w _ rfl).2.2.2.2.2.2.1⟩

theorem last_of_concat {α : Type} (p pre post : List α) (c e : α)
    (h : p ++ [c] = pre ++ e :: post) : (post = [] ∧ e = c) ∨ c ∈ post := by
  rcases List.eq_nil_or_concat post with hp | ⟨post1, l, hp⟩
  · subst hp
    have h1 := List.append_inj' h rfl
    left
    exact ⟨rfl, ((List.cons.inj h1.2).1).symm⟩
  · subst hp
    have h2 : p ++ [c] = (pre ++ e :: post1) ++ [l] := by
      rw [h]; simp
    have h1 := List.append_inj' h2 rfl
    right
    rw [(List.cons.inj h1.2).1]
    simp

/-- C7 (amended): in every run in which `e2e.NewScenario()` returned without
error, whether the script completes or aborts, `Close` is executed exactly
once, as the last step, so every `StartService` is followed by `Close`. -/
theorem Close_once_and_last_when_scenario_created (env : Env) (w : World)
    (h : env.scenario 0 Step.NewScenario = none) :
    ClosedOnceAtEnd (runTest env w).trace ∧
    ∀ pre e post svc, (runTest env w).trace = pre ++ e :: post →
      e.step = Step.StartService svc → ∃ x ∈ post, x.step = Step.Close := by
  have hc := closedOnceAtEnd_sound _ ((run_scans env w _ rfl).2.2.2.2.2.2.2 h)
  refine ⟨hc, ?_⟩
  obtain ⟨p, c, ht, hcl, _⟩ := hc
  intro pre e post svc hpre hs
  rw [ht] at hpre
  rcases last_of_concat p pre post c e hpre with ⟨_, he⟩ | hmem
  · rw [he, hcl] at hs
    cases hs
  · exact ⟨c, hmem, hcl⟩

/-- A closed instance of `Close_once_and_last_when_scenario_created`: the run in
which every step succeeds. -/
theorem Close_once_and_last_when_scenario_created_witness :
    okEnv.scenario 0 Step.NewScenario = none ∧
    ClosedOnceAtEnd (runTest okEnv world0).trace ∧
    ∀ pre e post svc, (runTest okEnv world0).trace = pre ++ e :: post →
      e.step = Step.StartService svc → ∃ x ∈ post, x.step = Step.Close :=
  ⟨rfl, Close_once_and_last_when_scenario_created okEnv world0 rfl⟩

theorem noScenario_trace :
    (runTest noScenarioEnv world0).trace =
      [{ step := Step.NewScenario, ret := Ret.error (some "create docker network") }] := rfl

/-- C7 (counterexample): when `e2e.NewScenario()` returns an error the test
stops before `defer s.Close()` is reached, and `Close` is never executed. -/
theorem Close_not_called_when_NewScenario_fails :
    ¬ ClosedOnceAtEnd (runTest noScenarioEnv world0).trace := by
  rintro ⟨pre, c, h, hc, _⟩
  rw [noScenario_trace] at h
  cases pre with
  | nil =>
    have h1 := (List.cons.inj h).1
    rw [← h1] at hc
    cases hc
  | cons a l =>
    have h1 := (List.cons.inj h).2
    cases l <;> cases h1

/-! ## The run in which the queriers lose the sample -/

theorem status_200 : decide ((200 : Int) = 200) = true := rfl

theorem type_vector (v : Vector) : decide (ValueType.ValVector = (Value.vector v).Type) = true :=
  rfl


theorem split_at {α : Type} : ∀ (n : Nat) (t : List α) (e1 e2 : α),
    t[n]? = some e1 → t[n + 1]? = some e2 → ∃ pre post, t = pre ++ e1 :: e2 :: post
  | 0, [], _, _, h1, _ => by simp at h1
  | 0, [_], _, _, _, h2 => by simp at h2
  | 0, a :: b :: l, e1, e2, h1, h2 => by
    simp at h1 h2
    subst h1 h2
    exact ⟨[], l, rfl⟩
  | n + 1, [], _, _, h1, _ => by simp at h1
  | n + 1, a :: l, e1, e2, h1, h2 => by
    simp at h1 h2
    obtain ⟨pre, post, h⟩ := split_at n l e1 e2 h1 h2
    exact ⟨a :: pre, post, by rw [h]; rfl⟩

set_option maxHeartbeats 4000000 in
/-- When every scenario call succeeds, the push is answered 200 and both queries
return a vector that differs from the expected one, the failed comparison is
followed by `StopService("querier")`. -/
theorem vector_mismatch_run (env : Env) (w : World) (r : Response) (v : Vector)
    (hs : ∀ n s, env.scenario n s = none)
    (hc : ∀ d q T, NewClient env.lib d q T =
      .ok { distributorAddress := d, timeout := 5 * Second,
            querierClient := { config := { Address := "http://" ++ q ++ "/api/prom",
                                           RoundTripper := { orgID := T } } },
            orgID := T })
    (hp : ∀ c ts w1, (Client.Push env.lib c ts w1).1 = (some r, none))
    (h200 : r.StatusCode = 200)
    (hq : ∀ c q ts w1, (Client.Query env.lib c q ts w1).1 = (Value.vector v, none))
    (hne : env.ObjectsAreEqual (env.generateSeries "series_1" env.now).2 v = false) :
    (runTest env w).failed = true ∧
    ∃ pre post, (runTest env w).trace =
      pre ++ { step := Step.CheckVector, ret := Ret.check false } ::
        { step := Step.StopService "querier", ret := Ret.error none } :: post := by
  generalize h : runTest env w = st
  simp only [runTest, TestBackwardCompatibilityWithChunksStorage, testBody, forRange, queryWith,
    call_bind, requireNoError_bind, requireNoError_apply, failNow_apply, failNow_bind,
    newClient_bind, bind_bind, pure_bind_apply, requireOk_bind, deref_bind, assertVector_bind,
    push_bind, query_bind, requireEqual_bind, assertEqual_bind, withDefer_apply, record_apply,
    pure_apply, List.nil_append, List.cons_append, List.length_cons, List.length_nil,
    Nat.reduceAdd, zero_add, hs, hc, hp, hq, hne, h200, status_200, type_vector, errorOf, decide_True] at h
  subst h
  exact ⟨rfl, split_at 22 _ _ _ rfl rfl⟩

theorem lost_Push (c : Client) (ts : List TimeSeries) (w : World) :
    (c.Push lostSampleEnv.lib ts w).1 =
      (some { StatusCode := 200, Header := Header.empty, Body := { data := [], closed := true } },
       none) := by
  rw [Push_eq]
  rfl

/-- C6 (counterexample): in the run in which every step succeeds but the
queriers return an empty vector, the comparison of the result vector fails and
`StopService("querier")` is executed after it. -/
theorem vector_mismatch_does_not_abort :
    ¬ AbortsAtFailure (fun _ => true) (runTest lostSampleEnv world0) := by
  intro h
  obtain ⟨_, pre, post, ht⟩ := vector_mismatch_run lostSampleEnv world0
    { StatusCode := 200, Header := Header.empty, Body := { data := [], closed := true } } []
    (fun _ _ => rfl) (fun _ _ _ => rfl) lost_Push rfl (fun _ _ _ _ => rfl) rfl
  have hx := (h pre _ _ ht rfl rfl).2 _ (List.mem_cons_self _ _)
  cases hx

set_option maxHeartbeats 4000000 in
/-- When every scenario call succeeds, the push is answered 200 and both queries
return the expected vector, the script runs to its end: 33 steps, one `Push`,
two `Query`, the test not marked failed. -/
theorem all_success_run (env : Env) (w : World) (r : Response) (v : Vector)
    (hs : ∀ n s, env.scenario n s = none)
    (hc : ∀ d q T, NewClient env.lib d q T =
      .ok { distributorAddress := d, timeout := 5 * Second,
            querierClient := { config := { Address := "http://" ++ q ++ "/api/prom",
                                           RoundTripper := { orgID := T } } },
            orgID := T })
    (hp : ∀ c ts w1, (Client.Push env.lib c ts w1).1 = (some r, none))
    (h200 : r.StatusCode = 200)
    (hq : ∀ c q ts w1, (Client.Query env.lib c q ts w1).1 = (Value.vector v, none))
    (heq : env.ObjectsAreEqual (env.generateSeries "series_1" env.now).2 v = true) :
    (runTest env w).failed = false ∧ (runTest env w).trace.length = 33 ∧
    ((runTest env w).trace.filter isPush).length = 1 ∧
    ((runTest env w).trace.filter isQuery).length = 2 := by
  generalize h : runTest env w = st
  simp only [runTest, TestBackwardCompatibilityWithChunksStorage, testBody, forRange, queryWith,
    call_bind, requireNoError_bind, requireNoError_apply, failNow_apply, failNow_bind,
    newClient_bind, bind_bind, pure_bind_apply, requireOk_bind, deref_bind, assertVector_bind,
    push_bind, query_bind, requireEqual_bind, assertEqual_bind, withDefer_apply, record_apply,
    pure_apply, List.nil_append, List.cons_append, List.length_cons, List.length_nil,
    Nat.reduceAdd, zero_add, hs, hc, hp, hq, heq, h200, status_200, type_vector, errorOf,
    decide_True] at h
  subst h
  exact ⟨rfl, rfl, rfl, rfl⟩

theorem ok_Push (c : Client) (ts : List TimeSeries) (w : World) :
    (c.Push okEnv.lib ts w).1 =
      (some { StatusCode := 200, Header := Header.empty, Body := { data := [], closed := true } },
       none) := by
  rw [Push_eq]
  rfl

/-- The run in which every step succeeds goes through the whole script. -/
theorem ok_run_completes :
    (runTest okEnv world0).failed = false ∧ (runTest okEnv world0).trace.length = 33 ∧
    ((runTest okEnv world0).trace.filter isPush).length = 1 ∧
    ((runTest okEnv world0).trace.filter isQuery).length = 2 :=
  all_success_run okEnv world0
    { StatusCode := 200, Header := Header.empty, Body := { data := [], closed := true } } vector0
    (fun _ _ => rfl) (fun _ _ _ => rfl) ok_Push rfl (fun _ _ _ _ => rfl) rfl

end Cortex
